import Mathlib

/-!
Shallow embedding of the izi-queue core (database-backed job queue, TypeScript):
the job data model, the SQLite adapter operations (`fetchJobs`, `stageJobs`,
`updateJob`, `rescueStuckJobs`, `checkUnique`, `insertJob`), the state machine
(`src/core/job.ts`), the per-queue dispatcher lifecycle (`src/core/queue.ts`),
the error path of the lifecycle executor (`Queue.handleError`), backoff
(`calculateBackoff`), the orchestrator's unique insert (`IziQueue.insertWithResult`),
and the isolation-pool initialization (`src/core/isolation/executor.ts`).

Timestamps are modelled as integers (a total order is all the SQL uses), JSON
argument values as a small inductive `JVal`, and tables as lists of rows.
-/

namespace IziQueue

/-- The seven job states of `src/types.ts` (`JobState`). -/
inductive JobState
  | scheduled
  | available
  | executing
  | retryable
  | completed
  | discarded
  | cancelled
deriving DecidableEq, Repr, Fintype

/-- A JSON scalar value, as stored in a job's `args`/`meta` mappings. -/
inductive JVal
  | null
  | num (n : ℤ)
  | str (s : String)
  | bool (b : Bool)
deriving DecidableEq, Repr

/-- One entry of a job's `errors` list (`JobError` in `src/types.ts`);
`atTime` stands for the source's `at` field. -/
structure JobError where
  atTime : ℤ
  attempt : ℕ
  error : String
  stacktrace : Option String
deriving DecidableEq, Repr

/-- A persisted job row (`Job` in `src/types.ts`); timestamps are integers,
nullable ones are `Option`. -/
structure Job where
  id : ℕ
  state : JobState
  queue : String
  worker : String
  args : List (String × JVal)
  meta : List (String × JVal)
  tags : List String
  errors : List JobError
  attempt : ℕ
  maxAttempts : ℕ
  priority : ℤ
  insertedAt : ℤ
  scheduledAt : ℤ
  attemptedAt : Option ℤ
  completedAt : Option ℤ
  discardedAt : Option ℤ
  cancelledAt : Option ℤ
deriving DecidableEq, Repr

/-- Source `STATE_TRANSITIONS` from `src/core/job.ts`: the adjacency list of the
state machine. -/
def STATE_TRANSITIONS : JobState → List JobState
  | .scheduled => [.available, .cancelled]
  | .available => [.executing, .cancelled]
  | .executing => [.completed, .retryable, .discarded, .cancelled]
  | .retryable => [.available, .cancelled]
  | .completed => []
  | .discarded => []
  | .cancelled => []

/-- Source `TERMINAL_STATES` from `src/core/job.ts`. -/
def TERMINAL_STATES : List JobState := [.completed, .discarded, .cancelled]

/-- Source `isValidTransition(from, to)` from `src/core/job.ts`. -/
def isValidTransition (src dst : JobState) : Bool :=
  dst ∈ STATE_TRANSITIONS src

/-- Source `isTerminal(state)` from `src/core/job.ts`. -/
def isTerminal (s : JobState) : Bool :=
  s ∈ TERMINAL_STATES

/-- Source `formatError(error, attempt)` from `src/core/job.ts`: builds one error
record stamped with the current time. -/
def formatError (msg : String) (stack : Option String) (attempt : ℕ) (now : ℤ) : JobError :=
  { atTime := now, attempt := attempt, error := msg, stacktrace := stack }

/-- Source `calculateBackoff(attempt, options)` from `src/core/job.ts`:
`base = basePad + multiplier * 2^min(attempt, maxPower)`, jittered by
`base * jitterPercent * (rand*2 - 1)` where `rand` models `Math.random()`,
and returned as `Math.round((base + jitter) * 1000)` milliseconds. -/
def calculateBackoff (attempt : ℕ) (basePad multiplier : ℚ) (maxPower : ℕ)
    (jitterPercent : ℚ) (rand : ℚ) : ℤ :=
  let power := min attempt maxPower
  let base := basePad + multiplier * 2 ^ power
  let jitter := base * jitterPercent * (rand * 2 - 1)
  round ((base + jitter) * 1000)

/-- Specialization `calculateBackoff(job.attempt)` with the source's default options
`basePad = 15`, `multiplier = 1`, `maxPower = 10`, `jitterPercent = 0.1`,
as invoked by `getBackoffDelay` in `src/core/worker.ts`. -/
def defaultBackoff (attempt : ℕ) (rand : ℚ) : ℤ :=
  calculateBackoff attempt 15 1 10 (1/10) rand

/-- The `ORDER BY priority ASC, scheduled_at ASC, id ASC` ordering used by
`fetchJobs` in `src/database/sqlite.ts`. -/
def jobOrder (a b : Job) : Prop :=
  a.priority < b.priority ∨
    (a.priority = b.priority ∧
      (a.scheduledAt < b.scheduledAt ∨
        (a.scheduledAt = b.scheduledAt ∧ a.id ≤ b.id)))

instance : DecidableRel jobOrder := fun a b => by
  unfold jobOrder; infer_instance

instance : IsTotal Job jobOrder where
  total a b := by
    unfold jobOrder
    rcases lt_trichotomy a.priority b.priority with h | h | h
    · exact Or.inl (Or.inl h)
    · rcases lt_trichotomy a.scheduledAt b.scheduledAt with h2 | h2 | h2
      · exact Or.inl (Or.inr ⟨h, Or.inl h2⟩)
      · rcases Nat.le_total a.id b.id with h3 | h3
        · exact Or.inl (Or.inr ⟨h, Or.inr ⟨h2, h3⟩⟩)
        · exact Or.inr (Or.inr ⟨h.symm, Or.inr ⟨h2.symm, h3⟩⟩)
      · exact Or.inr (Or.inr ⟨h.symm, Or.inl h2⟩)
    · exact Or.inr (Or.inl h)

instance : IsTrans Job jobOrder where
  trans a b c hab hbc := by
    unfold jobOrder at *
    rcases hab with h | ⟨he, h⟩ <;> rcases hbc with h2 | ⟨he2, h2⟩
    · exact Or.inl (h.trans h2)
    · exact Or.inl (he2 ▸ h)
    · exact Or.inl (he ▸ h2)
    · refine Or.inr ⟨he.trans he2, ?_⟩
      rcases h with h | ⟨hs, h⟩ <;> rcases h2 with h2 | ⟨hs2, h2⟩
      · exact Or.inl (h.trans h2)
      · exact Or.inl (hs2 ▸ h)
      · exact Or.inl (hs ▸ h2)
      · exact Or.inr ⟨hs.trans hs2, h.trans h2⟩

/-- The row update performed by the claiming `UPDATE` in
`SQLiteAdapter.fetchJobs`: `state = 'executing', attempted_at = now,
attempt = attempt + 1`. -/
def fetchUpdate (now : ℤ) (j : Job) : Job :=
  { j with state := .executing, attemptedAt := some now, attempt := j.attempt + 1 }

/-- The `WHERE` clause of the claiming `SELECT` in `SQLiteAdapter.fetchJobs`:
`queue = ? AND state = 'available'` — and nothing else. -/
def fetchCandidates (table : List Job) (q : String) : List Job :=
  table.filter fun j => j.queue == q && j.state == JobState.available

/-- The ids selected by the claiming `SELECT ... ORDER BY priority ASC,
scheduled_at ASC, id ASC LIMIT ?` in `SQLiteAdapter.fetchJobs`. -/
def fetchIds (table : List Job) (q : String) (limit : ℕ) : List ℕ :=
  ((List.insertionSort jobOrder (fetchCandidates table q)).take limit).map Job.id

/-- Source `SQLiteAdapter.fetchJobs(queue, limit)` (`src/database/sqlite.ts`):
inside one transaction, select the ids of rows with `queue = q AND
state = 'available'` ordered by `(priority, scheduled_at, id)` up to `limit`,
apply `fetchUpdate` to those rows, and re-select the updated rows in the
same order. Returns `(new table, returned rows)`. -/
def fetchJobs (table : List Job) (q : String) (limit : ℕ) (now : ℤ) :
    List Job × List Job :=
  let ids := fetchIds table q limit
  let table2 := table.map fun j => if j.id ∈ ids then fetchUpdate now j else j
  let returned := List.insertionSort jobOrder
    (table2.filter fun j => decide (j.id ∈ ids))
  (table2, returned)

/-- Source `SQLiteAdapter.stageJobs()` (`src/database/sqlite.ts`):
`UPDATE izi_jobs SET state='available' WHERE state='scheduled' AND
scheduled_at <= now`. Returns `(new table, number of changed rows)`. -/
def stageJobs (table : List Job) (now : ℤ) : List Job × ℕ :=
  let pred := fun j : Job => j.state == JobState.scheduled && decide (j.scheduledAt ≤ now)
  (table.map fun j => if pred j then { j with state := .available } else j,
   (table.filter pred).length)

/-- The nullable-field bag passed to `updateJob` (`Partial<Job>` restricted to
the columns the SQL statement touches); `none` stands for an absent field,
which `COALESCE` resolves to the stored value. -/
structure JobUpdate where
  state : Option JobState := none
  errors : Option (List JobError) := none
  completedAt : Option ℤ := none
  discardedAt : Option ℤ := none
  cancelledAt : Option ℤ := none
  scheduledAt : Option ℤ := none
  meta : Option (List (String × JVal)) := none
deriving DecidableEq, Repr

/-- The per-row effect of the `UPDATE ... SET col = COALESCE(?, col)`
statement in `SQLiteAdapter.updateJob`. -/
def applyUpdate (u : JobUpdate) (j : Job) : Job :=
  { j with
    state := u.state.getD j.state
    errors := u.errors.getD j.errors
    completedAt := u.completedAt.orElse fun _ => j.completedAt
    discardedAt := u.discardedAt.orElse fun _ => j.discardedAt
    cancelledAt := u.cancelledAt.orElse fun _ => j.cancelledAt
    scheduledAt := u.scheduledAt.getD j.scheduledAt
    meta := u.meta.getD j.meta }

/-- Source `SQLiteAdapter.updateJob(id, updates)` (`src/database/sqlite.ts`):
applies `applyUpdate` to the row with the given id (no transition check of
any kind), then re-reads that row. Returns `(new table, returned row)`. -/
def updateJob (table : List Job) (id : ℕ) (u : JobUpdate) :
    List Job × Option Job :=
  let table2 := table.map fun j => if j.id == id then applyUpdate u j else j
  (table2, table2.find? fun j => j.id == id)

/-- Source `SQLiteAdapter.rescueStuckJobs(rescueAfter)` (`src/database/sqlite.ts`):
`UPDATE ... SET state='available', scheduled_at=now WHERE state='executing'
AND attempted_at < now - rescueAfter` (a NULL `attempted_at` never satisfies
the comparison). Returns `(new table, number of changed rows)`. -/
def rescueStuckJobs (table : List Job) (rescueAfter : ℤ) (now : ℤ) :
    List Job × ℕ :=
  let pred := fun j : Job =>
    j.state == JobState.executing &&
      (match j.attemptedAt with
       | some t => decide (t < now - rescueAfter)
       | none => false)
  (table.map fun j => if pred j then { j with state := .available, scheduledAt := now } else j,
   (table.filter pred).length)

/-- The three field selectors of `UniqueOptions.fields` in `src/types.ts`. -/
inductive UField
  | worker
  | queue
  | args
deriving DecidableEq, Repr

/-- Field `UniqueOptions.period`: a number of seconds or the string `'infinity'`. -/
inductive UPeriod
  | seconds (n : ℕ)
  | infinity
deriving DecidableEq, Repr

/-- Source `UniqueOptions` from `src/types.ts`; `none` stands for an omitted field. -/
structure UniqueOptions where
  fields : Option (List UField) := none
  keys : Option (List String) := none
  period : Option UPeriod := none
  states : Option (List JobState) := none
deriving DecidableEq, Repr

/-- The insert payload (`Omit<Job, 'id' | 'insertedAt'>`): the columns named
by the `INSERT` statement in `SQLiteAdapter.insertJob`. -/
structure NewJob where
  state : JobState
  queue : String
  worker : String
  args : List (String × JVal)
  meta : List (String × JVal)
  tags : List String
  errors : List JobError
  attempt : ℕ
  maxAttempts : ℕ
  priority : ℤ
  scheduledAt : ℤ
deriving DecidableEq, Repr

/-- SQLite's `json_extract(args, '$.key')`: SQL NULL (`none`) when the key is
absent or its JSON value is `null`, the scalar otherwise. -/
def jsonExtract (args : List (String × JVal)) (k : String) : Option JVal :=
  match args.lookup k with
  | some JVal.null => none
  | some v => some v
  | none => none

/-- The bound parameter `(job.args)[key] ?? null` in
`SQLiteAdapter.checkUnique`: a missing key and a JSON `null` value both bind
SQL NULL (`none`). -/
def bindParam (args : List (String × JVal)) (k : String) : Option JVal :=
  match args.lookup k with
  | some JVal.null => none
  | some v => some v
  | none => none

/-- SQL equality under three-valued logic: a comparison involving NULL is
never true, so the `WHERE` conjunct holds only when both sides are non-NULL
and equal. -/
def sqlEq (a b : Option JVal) : Bool :=
  match a with
  | none => false
  | some x =>
    match b with
    | none => false
    | some y => x == y

/-- The per-key conjunct `json_extract(args, '$.key') = ?` of
`SQLiteAdapter.checkUnique` for candidate row `j` against payload `p`. -/
def keyMatch (j : Job) (p : NewJob) (k : String) : Bool :=
  sqlEq (jsonExtract j.args k) (bindParam p.args k)

/-- The `WHERE` clause built by `SQLiteAdapter.checkUnique(options, job)`
(`src/database/sqlite.ts`), evaluated on one candidate row: defaults
`fields = [worker, queue, args]`, `states = [available, scheduled, executing,
retryable]`, `period = 60`; `'infinity'` maps to the sentinel `999999999`,
which skips the `inserted_at` recency conjunct. -/
def matchesUnique (opts : UniqueOptions) (p : NewJob) (now : ℤ) (j : Job) : Bool :=
  let fields := opts.fields.getD [UField.worker, UField.queue, UField.args]
  let states := opts.states.getD
    [JobState.available, JobState.scheduled, JobState.executing, JobState.retryable]
  let period : ℕ :=
    match opts.period with
    | some UPeriod.infinity => 999999999
    | some (UPeriod.seconds n) => n
    | none => 60
  decide (j.state ∈ states) &&
  (if period = 999999999 then true else decide (now - (period : ℤ) < j.insertedAt)) &&
  (if UField.worker ∈ fields then j.worker == p.worker else true) &&
  (if UField.queue ∈ fields then j.queue == p.queue else true) &&
  (if UField.args ∈ fields then
    match opts.keys with
    | some ks => if ks.length > 0 then ks.all (keyMatch j p) else j.args == p.args
    | none => j.args == p.args
  else true)

/-- Source `SQLiteAdapter.checkUnique(options, job)`: `SELECT * ... LIMIT 1` — the
first row of the table satisfying `matchesUnique`, if any. -/
def checkUnique (opts : UniqueOptions) (p : NewJob) (table : List Job) (now : ℤ) :
    Option Job :=
  table.find? (matchesUnique opts p now)

/-- Source `SQLiteAdapter.insertJob(job)`: persists the payload as a new row with
the server-assigned id and `inserted_at = now` (the nullable timestamps are
not in the column list, so they start NULL). Returns `(new table, row)`. -/
def insertJob (table : List Job) (p : NewJob) (nextId : ℕ) (now : ℤ) :
    List Job × Job :=
  let j : Job :=
    { id := nextId, state := p.state, queue := p.queue, worker := p.worker,
      args := p.args, meta := p.meta, tags := p.tags, errors := p.errors,
      attempt := p.attempt, maxAttempts := p.maxAttempts, priority := p.priority,
      insertedAt := now, scheduledAt := p.scheduledAt,
      attemptedAt := none, completedAt := none, discardedAt := none,
      cancelledAt := none }
  (table ++ [j], j)

/-- Source `IziQueue.insertWithResult` (`src/core/izi-queue.ts`) on an adapter
supporting `checkUnique`: with a `unique` option, consult `checkUnique`
first; on a hit return the existing job with `conflict = true` and emit
`job:unique_conflict` without touching the table; otherwise insert.
Returns `(new table, job, conflict flag, emitted events)`. -/
def insertWithResult (table : List Job) (p : NewJob) (uopt : Option UniqueOptions)
    (nextId : ℕ) (now : ℤ) : List Job × Job × Bool × List String :=
  match uopt with
  | some u =>
    match checkUnique u p table now with
    | some existing => (table, existing, true, ["job:unique_conflict"])
    | none =>
      let r := insertJob table p nextId now
      (r.1, r.2, false, [])
  | none =>
    let r := insertJob table p nextId now
    (r.1, r.2, false, [])

/-- Source `Queue.handleError(job, error, startTime)` (`src/core/queue.ts`): append
`formatError(error, job.attempt)` to the job's errors; if
`attempt >= maxAttempts` persist `{state: 'discarded', discarded_at: now}`,
else persist `{state: 'retryable', scheduled_at: now + backoffMs}` where
`backoffMs = getBackoffDelay(job)`. Returns the `JobUpdate` passed to
`updateJob` and the emitted telemetry event. -/
def handleError (j : Job) (msg : String) (stack : Option String) (now : ℤ)
    (backoffMs : ℤ) : JobUpdate × String :=
  let newErrors := j.errors ++ [formatError msg stack j.attempt now]
  if j.maxAttempts ≤ j.attempt then
    ({ state := some .discarded, errors := some newErrors, discardedAt := some now },
     "job:error")
  else
    ({ state := some .retryable, errors := some newErrors,
       scheduledAt := some (now + backoffMs) },
     "job:error")

/-- Dispatcher lifecycle states (`type QueueState` in `src/core/queue.ts`). -/
inductive QState
  | running
  | paused
  | stopped
deriving DecidableEq, Repr

/-- The observable dispatcher state of the `Queue` class: the `paused`
configuration flag, the lifecycle state, whether a poll timer is armed, and
the ids of in-flight executions (`running` map keys). -/
structure QueueM where
  cfgPaused : Bool
  state : QState
  pollTimer : Bool
  inflight : List ℕ
deriving DecidableEq, Repr

/-- Source `Queue.schedulePoll()`: arms the poll timer only while `running`. -/
def schedulePoll (q : QueueM) : QueueM :=
  if q.state = QState.running then { q with pollTimer := true } else q

/-- Source `Queue.start()`: no-op when already `running`; otherwise move to `paused`
or `running` per the config, emit `queue:start`, and arm the poll when
running. Returns `(new state, emitted events)`. -/
def queueStart (q : QueueM) : QueueM × List String :=
  if q.state = QState.running then (q, [])
  else
    let st := if q.cfgPaused then QState.paused else QState.running
    let q1 := { q with state := st }
    (if st = QState.running then schedulePoll q1 else q1, ["queue:start"])

/-- Source `Queue.stop(gracePeriod)`: no-op when already `stopped`; otherwise move
to `stopped`, emit `queue:stop`, clear the poll timer (in-flight executions
are awaited, not altered). -/
def queueStop (q : QueueM) : QueueM × List String :=
  if q.state = QState.stopped then (q, [])
  else ({ q with state := QState.stopped, pollTimer := false }, ["queue:stop"])

/-- Source `Queue.pause()`: no-op unless `running`; otherwise move to `paused`,
emit `queue:pause`, clear the poll timer. -/
def queuePause (q : QueueM) : QueueM × List String :=
  if q.state ≠ QState.running then (q, [])
  else ({ q with state := QState.paused, pollTimer := false }, ["queue:pause"])

/-- Source `Queue.resume()`: no-op unless `paused`; otherwise move to `running`,
emit `queue:resume`, re-arm the poll. -/
def queueResume (q : QueueM) : QueueM × List String :=
  if q.state ≠ QState.paused then (q, [])
  else (schedulePoll { q with state := QState.running }, ["queue:resume"])

/-- Source `IsolationConfig` as consumed by `initializeIsolation`
(`src/core/isolation/executor.ts`): every field optional. -/
structure IsolationConfig where
  minThreads : Option ℕ := none
  maxThreads : Option ℕ := none
  idleTimeoutMs : Option ℕ := none
deriving DecidableEq, Repr

/-- Source `ThreadPoolConfig` after defaulting (`src/core/isolation/thread-pool.ts`
has the same defaults `{minThreads: 0, maxThreads: 4, idleTimeoutMs: 30000}`). -/
structure ThreadPoolConfig where
  minThreads : ℕ
  maxThreads : ℕ
  idleTimeoutMs : ℕ
deriving DecidableEq, Repr

/-- The pool configuration built by `initializeIsolation` from an optional
`IsolationConfig`: `config?.minThreads ?? 0`, `config?.maxThreads ?? 4`,
`config?.idleTimeoutMs ?? 30000`. -/
def mkPoolConfig (c : Option IsolationConfig) : ThreadPoolConfig :=
  { minThreads := (c.bind IsolationConfig.minThreads).getD 0,
    maxThreads := (c.bind IsolationConfig.maxThreads).getD 4,
    idleTimeoutMs := (c.bind IsolationConfig.idleTimeoutMs).getD 30000 }

/-- Source `initializeIsolation(config)` (`src/core/isolation/executor.ts`) acting
on the module-level `threadPool` variable: returns unchanged when a pool
already exists, otherwise creates one from the (defaulted) configuration. -/
def initializeIsolation (c : Option IsolationConfig)
    (pool : Option ThreadPoolConfig) : Option ThreadPoolConfig :=
  match pool with
  | some p => some p
  | none => some (mkPoolConfig c)

/-- Source `shutdownIsolation()` (`src/core/isolation/executor.ts`): shuts the pool
down and resets the module-level variable to `null`. -/
def shutdownIsolation (_pool : Option ThreadPoolConfig) : Option ThreadPoolConfig :=
  none

/-! Concrete rows and payloads used to instantiate the theorems below. -/

/-- An `available` row whose `scheduled_at` lies in the future. -/
def c1job : Job :=
  { id := 1, state := .available, queue := "q", worker := "w",
    args := [], meta := [], tags := [], errors := [], attempt := 0,
    maxAttempts := 20, priority := 0, insertedAt := 0, scheduledAt := 100,
    attemptedAt := none, completedAt := none, discardedAt := none,
    cancelledAt := none }

/-- Two due `available` rows with distinct priorities. -/
def c1wjobs : List Job :=
  [{ id := 1, state := .available, queue := "q", worker := "w",
     args := [], meta := [], tags := [], errors := [], attempt := 0,
     maxAttempts := 20, priority := 5, insertedAt := 0, scheduledAt := 0,
     attemptedAt := none, completedAt := none, discardedAt := none,
     cancelledAt := none },
   { id := 2, state := .available, queue := "q", worker := "w",
     args := [], meta := [], tags := [], errors := [], attempt := 0,
     maxAttempts := 20, priority := -3, insertedAt := 0, scheduledAt := 0,
     attemptedAt := none, completedAt := none, discardedAt := none,
     cancelledAt := none }]

/-- A `retryable` row whose retry time has passed. -/
def c2job : Job :=
  { id := 1, state := .retryable, queue := "default", worker := "w",
    args := [], meta := [], tags := [],
    errors := [{ atTime := -10, attempt := 1, error := "boom", stacktrace := none }],
    attempt := 1, maxAttempts := 3, priority := 0, insertedAt := -20,
    scheduledAt := -5, attemptedAt := some (-10), completedAt := none,
    discardedAt := none, cancelledAt := none }

/-- A terminally `completed` row. -/
def c3job : Job :=
  { id := 1, state := .completed, queue := "default", worker := "w",
    args := [], meta := [], tags := [], errors := [], attempt := 1,
    maxAttempts := 20, priority := 0, insertedAt := 0, scheduledAt := 0,
    attemptedAt := some 1, completedAt := some 2, discardedAt := none,
    cancelledAt := none }

/-- A partial update requesting the (illegal) transition to `available`. -/
def c3upd : JobUpdate := { state := some .available }

/-- A fresh job with `max_attempts = 1`, used to drive the
fetch → rescue → fetch sequence. -/
def c5job : Job :=
  { id := 1, state := .available, queue := "q", worker := "w",
    args := [], meta := [], tags := [], errors := [], attempt := 0,
    maxAttempts := 1, priority := 0, insertedAt := 0, scheduledAt := 0,
    attemptedAt := none, completedAt := none, discardedAt := none,
    cancelledAt := none }

/-- Table after the first claim of `c5job` at time 0. -/
def c5table1 : List Job := (fetchJobs [c5job] "q" 1 0).1

/-- Table after the rescuer recovers the stuck execution at time 1000. -/
def c5table2 : List Job := (rescueStuckJobs c5table1 300 1000).1

/-- Table after the rescued job is claimed again at time 2000. -/
def c5table3 : List Job := (fetchJobs c5table2 "q" 1 2000).1

/-- An insert payload for the uniqueness scenarios. -/
def c6p : NewJob :=
  { state := .available, queue := "default", worker := "SendEmail",
    args := [("userId", JVal.num 123)], meta := [], tags := [], errors := [],
    attempt := 0, maxAttempts := 20, priority := 0, scheduledAt := 0 }

/-- A persisted row equal to `c6p` on `worker`, `queue` and `args`. -/
def c6cand : Job :=
  { id := 7, state := .available, queue := "default", worker := "SendEmail",
    args := [("userId", JVal.num 123)], meta := [], tags := [], errors := [],
    attempt := 0, maxAttempts := 20, priority := 0, insertedAt := 0,
    scheduledAt := 0, attemptedAt := none, completedAt := none,
    discardedAt := none, cancelledAt := none }

/-- Unique options naming the key `k`, matching on `args` only, with the
recency filter disabled. -/
def c7opts : UniqueOptions :=
  { fields := some [UField.args], keys := some ["k"],
    period := some UPeriod.infinity, states := none }

/-- A payload whose `args` lack the key `k`. -/
def c7p : NewJob :=
  { state := .available, queue := "default", worker := "w",
    args := [], meta := [], tags := [], errors := [], attempt := 0,
    maxAttempts := 20, priority := 0, scheduledAt := 0 }

/-- A candidate row whose `args` also lack the key `k`. -/
def c7cand : Job :=
  { id := 1, state := .available, queue := "default", worker := "w",
    args := [], meta := [], tags := [], errors := [], attempt := 0,
    maxAttempts := 20, priority := 0, insertedAt := 0, scheduledAt := 0,
    attemptedAt := none, completedAt := none, discardedAt := none,
    cancelledAt := none }

/-- A candidate row holding the key `k` with value 5. -/
def c7wcand : Job :=
  { c7cand with args := [("k", JVal.num 5)] }

/-- A payload holding the key `k` with value 5. -/
def c7wp : NewJob :=
  { c7p with args := [("k", JVal.num 5)] }

/-! Theorems. -/

/-- C2: `stageJobs` leaves a due `retryable` row untouched: its predicate
requires `state = 'scheduled'`, so a retried job whose `scheduled_at` has
passed is never transitioned back to `available` (and is therefore never
fetched again), contradicting the claim and the README's promise that a
failed job "will be retried with backoff". -/
theorem stageJobs_ignores_due_retryable_row :
    c2job.state = JobState.retryable ∧ c2job.scheduledAt ≤ 0 ∧
    stageJobs [c2job] 0 = ([c2job], 0) := by
  decide

/-- C3 counterexample: `updateJob` persists the illegal terminal-state
transition `completed → available` (which `isValidTransition` classifies as
invalid) instead of failing: no invariant-violation error exists anywhere in
the update path. -/
theorem updateJob_applies_illegal_transition :
    isValidTransition JobState.completed JobState.available = false ∧
    (updateJob [c3job] 1 c3upd).2 = some { c3job with state := .available } := by
  decide

/-- C3 (amended): `isValidTransition` rejects every transition out of a
terminal state, but `updateJob` enforces nothing: every row of the updated
table is either an untouched row with a different id, or the unconditional
`applyUpdate` of a row with the requested id — whatever state the update
carries. -/
theorem updateJob_unconditional_and_terminal_states_closed :
    (∀ s t : JobState, isTerminal s = true → isValidTransition s t = false) ∧
    (∀ (table : List Job) (i : ℕ) (u : JobUpdate) (r : Job),
      r ∈ (updateJob table i u).1 →
      (r ∈ table ∧ r.id ≠ i) ∨ ∃ j ∈ table, j.id = i ∧ r = applyUpdate u j) := by
  constructor
  · decide
  · intro table i u r hr
    simp only [updateJob, List.mem_map] at hr
    obtain ⟨j, hj, hfj⟩ := hr
    by_cases hid : j.id = i
    · right
      refine ⟨j, hj, hid, ?_⟩
      rw [← hfj, if_pos (by simpa using hid)]
    · left
      rw [← hfj, if_neg (by simpa using hid)]
      exact ⟨hj, hid⟩

/-- C3 witness: the amended statement applied at the concrete completed row
and the update requesting `available`. -/
theorem updateJob_unconditional_witness :
    isValidTransition JobState.discarded JobState.executing = false ∧
    (({ c3job with state := .available } ∈ [c3job] ∧
        ({ c3job with state := .available } : Job).id ≠ 1) ∨
      ∃ j ∈ [c3job], j.id = 1 ∧
        { c3job with state := .available } = applyUpdate c3upd j) :=
  ⟨updateJob_unconditional_and_terminal_states_closed.1 .discarded .executing (by decide),
   updateJob_unconditional_and_terminal_states_closed.2 [c3job] 1 c3upd
     { c3job with state := .available } (by decide)⟩

/-- C4: on a handler error, `handleError` appends exactly one formatted
error record; it persists `state = 'discarded'` with `discarded_at = now`
when `attempt ≥ max_attempts`, and `state = 'retryable'` with
`scheduled_at = now + backoff` otherwise. -/
theorem handleError_maps_error_outcome (j : Job) (msg : String)
    (stack : Option String) (now backoffMs : ℤ) :
    (j.maxAttempts ≤ j.attempt →
      (handleError j msg stack now backoffMs).1 =
        { state := some .discarded,
          errors := some (j.errors ++ [formatError msg stack j.attempt now]),
          discardedAt := some now }) ∧
    (j.attempt < j.maxAttempts →
      (handleError j msg stack now backoffMs).1 =
        { state := some .retryable,
          errors := some (j.errors ++ [formatError msg stack j.attempt now]),
          scheduledAt := some (now + backoffMs) }) ∧
    (∀ es, (handleError j msg stack now backoffMs).1.errors = some es →
      es.length = j.errors.length + 1) := by
  refine ⟨fun h => ?_, fun h => ?_, fun es hes => ?_⟩
  · simp [handleError, if_pos h]
  · simp [handleError, if_neg (not_le.mpr h)]
  · unfold handleError at hes
    split at hes <;> simp only [Option.some.injEq] at hes <;>
      simp [← hes, List.length_append]

/-- C4 witness: the discard branch at a job already at its attempt limit,
and the retry branch at a fresh job. -/
theorem handleError_maps_error_outcome_witness :
    (handleError { c3job with state := .executing, attempt := 20 } "boom" none 50 17000).1 =
      { state := some .discarded,
        errors := some ([] ++ [formatError "boom" none 20 50]),
        discardedAt := some 50 } ∧
    (handleError { c3job with state := .executing, attempt := 1 } "boom" none 50 17000).1 =
      { state := some .retryable,
        errors := some ([] ++ [formatError "boom" none 1 50]),
        scheduledAt := some (50 + 17000) } :=
  ⟨(handleError_maps_error_outcome { c3job with state := .executing, attempt := 20 }
      "boom" none 50 17000).1 (by decide),
   (handleError_maps_error_outcome { c3job with state := .executing, attempt := 1 }
      "boom" none 50 17000).2.1 (by decide)⟩

/-- C9: the dispatcher's lifecycle operations are guarded no-ops outside
their source state — `pause` when not running, `resume` when not paused,
`start` when already running, `stop` when already stopped each return the
state unchanged (timer and in-flight set included) and emit no event. -/
theorem queue_lifecycle_guarded_noops (q : QueueM) :
    (q.state ≠ QState.running → queuePause q = (q, [])) ∧
    (q.state ≠ QState.paused → queueResume q = (q, [])) ∧
    (q.state = QState.running → queueStart q = (q, [])) ∧
    (q.state = QState.stopped → queueStop q = (q, [])) := by
  refine ⟨fun h => ?_, fun h => ?_, fun h => ?_, fun h => ?_⟩ <;>
    simp [queuePause, queueResume, queueStart, queueStop, h]

/-- C9 witness: the guards evaluated on a stopped and on a running
dispatcher. -/
theorem queue_lifecycle_guarded_noops_witness :
    queuePause { cfgPaused := false, state := .stopped, pollTimer := false, inflight := [] } =
      ({ cfgPaused := false, state := .stopped, pollTimer := false, inflight := [] }, []) ∧
    queueResume { cfgPaused := false, state := .stopped, pollTimer := false, inflight := [] } =
      ({ cfgPaused := false, state := .stopped, pollTimer := false, inflight := [] }, []) ∧
    queueStart { cfgPaused := false, state := .running, pollTimer := true, inflight := [3] } =
      ({ cfgPaused := false, state := .running, pollTimer := true, inflight := [3] }, []) ∧
    queueStop { cfgPaused := false, state := .stopped, pollTimer := false, inflight := [] } =
      ({ cfgPaused := false, state := .stopped, pollTimer := false, inflight := [] }, []) :=
  ⟨(queue_lifecycle_guarded_noops _).1 (by decide),
   (queue_lifecycle_guarded_noops _).2.1 (by decide),
   (queue_lifecycle_guarded_noops _).2.2.1 (by decide),
   (queue_lifecycle_guarded_noops _).2.2.2 (by decide)⟩

/-- C10: once a pool exists, `initializeIsolation` is a no-op even for a
different configuration; only `shutdownIsolation` clears the pool, after
which a new call applies the (defaulted) new configuration. -/
theorem initializeIsolation_idempotent (c c2 : Option IsolationConfig)
    (s : Option ThreadPoolConfig) (p : ThreadPoolConfig) (h : s = some p) :
    initializeIsolation c s = s ∧
    initializeIsolation c2 (initializeIsolation c none) = initializeIsolation c none ∧
    shutdownIsolation s = none ∧
    initializeIsolation c2 (shutdownIsolation s) = some (mkPoolConfig c2) := by
  subst h
  simp [initializeIsolation, shutdownIsolation]

/-- C10 witness: the idempotence facts evaluated at two distinct concrete
configurations. -/
theorem initializeIsolation_idempotent_witness :
    initializeIsolation (some { minThreads := some 1 }) (some (mkPoolConfig none)) =
      some (mkPoolConfig none) ∧
    initializeIsolation (some { maxThreads := some 8 })
        (initializeIsolation (some { minThreads := some 1 }) none) =
      initializeIsolation (some { minThreads := some 1 }) none ∧
    shutdownIsolation (some (mkPoolConfig none)) = none ∧
    initializeIsolation (some { maxThreads := some 8 })
        (shutdownIsolation (some (mkPoolConfig none))) =
      some (mkPoolConfig (some { maxThreads := some 8 })) :=
  initializeIsolation_idempotent (some { minThreads := some 1 })
    (some { maxThreads := some 8 }) (some (mkPoolConfig none)) (mkPoolConfig none) rfl

/-- C5 counterexample: fetch (attempt 1 = max_attempts), rescue of the stuck
execution, fetch again — the attempt counter reaches
`max_attempts + 1 = 2`, violating the claimed invariant
`attempt ≤ max_attempts`. -/
theorem attempt_exceeds_max_after_rescue_refetch :
    c5table3.map (fun r => (r.attempt, r.maxAttempts)) = [(2, 1)] ∧
    ¬ ∀ r ∈ c5table3, r.attempt ≤ r.maxAttempts := by
  decide

/-- C5 (amended): each fetch increments `attempt` by exactly one with no
upper bound — `fetchJobs` never consults `max_attempts` — and the rescuer
preserves the counter; hence a job rescued from `executing` at
`attempt = max_attempts` and fetched again reaches `max_attempts + 1`. -/
theorem fetch_increments_attempt_unboundedly :
    (∀ (now : ℤ) (j : Job), (fetchUpdate now j).attempt = j.attempt + 1) ∧
    (∀ (table : List Job) (q : String) (n : ℕ) (now : ℤ) (r : Job),
      r ∈ (fetchJobs table q n now).1 → ∃ j ∈ table, r = j ∨ r = fetchUpdate now j) ∧
    (∀ (table : List Job) (aft now : ℤ) (r : Job),
      r ∈ (rescueStuckJobs table aft now).1 →
      ∃ j ∈ table, r.attempt = j.attempt ∧ r.id = j.id ∧
        r.maxAttempts = j.maxAttempts) := by
  refine ⟨fun now j => rfl, ?_, ?_⟩
  · intro table q n now r hr
    simp only [fetchJobs, List.mem_map] at hr
    obtain ⟨j, hj, hfj⟩ := hr
    refine ⟨j, hj, ?_⟩
    split at hfj
    · right; exact hfj.symm
    · left; exact hfj.symm
  · intro table aft now r hr
    simp only [rescueStuckJobs, List.mem_map] at hr
    obtain ⟨j, hj, hfj⟩ := hr
    refine ⟨j, hj, ?_⟩
    split at hfj <;> rw [← hfj] <;> exact ⟨rfl, rfl, rfl⟩

/-- C5 witness: the amended statement evaluated on the one-row table of the
counterexample scenario. -/
theorem fetch_increments_attempt_unboundedly_witness :
    (fetchUpdate 0 c5job).attempt = c5job.attempt + 1 ∧
    (∃ j ∈ [c5job], fetchUpdate 0 c5job = j ∨ fetchUpdate 0 c5job = fetchUpdate 0 j) ∧
    (∃ j ∈ c5table1,
      ({ fetchUpdate 0 c5job with state := JobState.available, scheduledAt := 1000 } : Job).attempt = j.attempt ∧
      ({ fetchUpdate 0 c5job with state := JobState.available, scheduledAt := 1000 } : Job).id = j.id ∧
      ({ fetchUpdate 0 c5job with state := JobState.available, scheduledAt := 1000 } : Job).maxAttempts = j.maxAttempts) :=
  ⟨fetch_increments_attempt_unboundedly.1 0 c5job,
   fetch_increments_attempt_unboundedly.2.1 [c5job] "q" 1 0 (fetchUpdate 0 c5job)
     (by decide),
   fetch_increments_attempt_unboundedly.2.2 c5table1 300 1000
     { fetchUpdate 0 c5job with state := JobState.available, scheduledAt := 1000 }
     (by decide)⟩

/-- C6: with a `unique` option, `insertWithResult` returns the job found by
`checkUnique` with `conflict = true`, emits `job:unique_conflict` and leaves
the table unchanged; when `checkUnique` finds nothing it appends exactly the
new row and reports `conflict = false`. -/
theorem insertWithResult_unique_conflict (table : List Job) (p : NewJob)
    (u : UniqueOptions) (nid : ℕ) (now : ℤ) :
    (∀ e, checkUnique u p table now = some e →
      insertWithResult table p (some u) nid now =
        (table, e, true, ["job:unique_conflict"])) ∧
    (checkUnique u p table now = none →
      insertWithResult table p (some u) nid now =
        (table ++ [(insertJob table p nid now).2],
         (insertJob table p nid now).2, false, [])) := by
  constructor
  · intro e he
    simp [insertWithResult, he]
  · intro hn
    simp [insertWithResult, hn, insertJob]

/-- C6 witness: a duplicate insert of the `SendEmail` payload hits the
existing row (same table, `conflict = true`), while the insert into an
empty table persists one row with `conflict = false`. -/
theorem insertWithResult_unique_conflict_witness :
    insertWithResult [c6cand] c6p (some {}) 8 0 =
      ([c6cand], c6cand, true, ["job:unique_conflict"]) ∧
    insertWithResult [] c6p (some {}) 1 5 =
      ([] ++ [(insertJob [] c6p 1 5).2], (insertJob [] c6p 1 5).2, false, []) :=
  ⟨(insertWithResult_unique_conflict [c6cand] c6p {} 8 0).1 c6cand (by decide),
   (insertWithResult_unique_conflict [] c6p {} 1 5).2 (by decide)⟩

/-- C7 counterexample: with `keys = ["k"]` and both the payload and the
candidate lacking `k`, the bound parameter is SQL NULL and
`json_extract(...) = NULL` is never true, so the candidate does NOT match
and `checkUnique` returns no job — a missing value on both sides does not
count as a match. -/
theorem checkUnique_missing_key_no_match :
    c7cand.args.lookup "k" = none ∧ c7p.args.lookup "k" = none ∧
    keyMatch c7cand c7p "k" = false ∧
    checkUnique c7opts c7p [c7cand] 0 = none := by
  decide

/-- Helper: `find?` returns the first element satisfying the predicate: everything
before it in the list fails the predicate. -/
theorem find?_first_split {α : Type} (pr : α → Bool) :
    ∀ (l : List α) (a : α), l.find? pr = some a →
      ∃ l1 l2, l = l1 ++ a :: l2 ∧ (∀ x ∈ l1, pr x = false) ∧ pr a = true := by
  intro l
  induction l with
  | nil => intro a h; simp at h
  | cons x xs ih =>
    intro a h
    by_cases hpx : pr x = true
    · rw [List.find?_cons_of_pos _ hpx] at h
      obtain rfl : x = a := by simpa using h
      exact ⟨[], xs, rfl, by simp, hpx⟩
    · rw [List.find?_cons_of_neg _ (by simpa using hpx)] at h
      obtain ⟨l1, l2, rfl, h1, h2⟩ := ih a h
      exact ⟨x :: l1, l2, rfl, by
        intro y hy
        rcases List.mem_cons.mp hy with rfl | hy
        · simpa using hpx
        · exact h1 y hy, h2⟩

/-- C7 (amended): `checkUnique` applies the documented defaults and returns
the first matching row; `period = 'infinity'` makes the match independent of
`inserted_at`; and a named key matches only when BOTH the payload and the
candidate hold a present, non-null value for it and the two values are equal
(SQL three-valued logic: a NULL on either side never matches). -/
theorem checkUnique_first_match_and_key_semantics :
    (∀ (p : NewJob) (table : List Job) (now : ℤ),
      checkUnique {} p table now =
        checkUnique
          { fields := some [UField.worker, UField.queue, UField.args],
            keys := none, period := some (UPeriod.seconds 60),
            states := some [JobState.available, JobState.scheduled,
              JobState.executing, JobState.retryable] } p table now) ∧
    (∀ (opts : UniqueOptions) (p : NewJob) (now : ℤ) (table : List Job) (j : Job),
      checkUnique opts p table now = some j →
      ∃ l1 l2, table = l1 ++ j :: l2 ∧
        (∀ x ∈ l1, matchesUnique opts p now x = false) ∧
        matchesUnique opts p now j = true) ∧
    (∀ (opts : UniqueOptions) (p : NewJob) (now t : ℤ) (j : Job),
      opts.period = some UPeriod.infinity →
      matchesUnique opts p now { j with insertedAt := t } =
        matchesUnique opts p now j) ∧
    (∀ (j : Job) (p : NewJob) (k : String),
      keyMatch j p k = true ↔
        ∃ v, jsonExtract j.args k = some v ∧ bindParam p.args k = some v) := by
  refine ⟨fun p table now => rfl, ?_, ?_, ?_⟩
  · intro opts p now table j h
    exact find?_first_split (matchesUnique opts p now) table j h
  · intro opts p now t j hper
    simp only [matchesUnique, hper]
    rfl
  · intro j p k
    unfold keyMatch sqlEq
    cases he : jsonExtract j.args k with
    | none =>
      constructor
      · intro h; exact absurd h Bool.false_ne_true
      · rintro ⟨u, hu, _⟩; exact Option.noConfusion hu
    | some v =>
      cases hb : bindParam p.args k with
      | none =>
        constructor
        · intro h; exact absurd h Bool.false_ne_true
        · rintro ⟨u, _, hw⟩; exact Option.noConfusion hw
      | some w =>
        constructor
        · intro h
          exact ⟨v, rfl, congrArg some (beq_iff_eq.mp h).symm⟩
        · rintro ⟨u, hu, hw⟩
          exact beq_iff_eq.mpr ((Option.some.inj hu).trans (Option.some.inj hw).symm)

/-- C7 witness: the first-match and key-equality facts evaluated on the
one-row table whose candidate and payload both carry `k = 5`. -/
theorem checkUnique_first_match_witness :
    (∃ l1 l2, [c7wcand] = l1 ++ c7wcand :: l2 ∧
      (∀ x ∈ l1, matchesUnique c7opts c7wp 0 x = false) ∧
      matchesUnique c7opts c7wp 0 c7wcand = true) ∧
    (∃ v, jsonExtract c7wcand.args "k" = some v ∧ bindParam c7wp.args "k" = some v) :=
  ⟨checkUnique_first_match_and_key_semantics.2.1 c7opts c7wp 0 [c7wcand] c7wcand
     (by decide),
   (checkUnique_first_match_and_key_semantics.2.2.2 c7wcand c7wp "k").mp (by decide)⟩

/-- An integer lower bound on a rational is a lower bound on its rounding. -/
theorem le_round_of_le {x : ℚ} {a : ℤ} (h : (a : ℚ) ≤ x) : a ≤ round x := by
  by_contra hc
  push_neg at hc
  have h1 : ((round x : ℤ) : ℚ) + 1 ≤ (a : ℚ) := by
    exact_mod_cast Int.add_one_le_iff.mpr hc
  have h2 := abs_sub_round x
  rw [abs_le] at h2
  linarith [h2.1, h2.2]

/-- An integer upper bound on a rational is an upper bound on its rounding. -/
theorem round_le_of_le {x : ℚ} {b : ℤ} (h : x ≤ (b : ℚ)) : round x ≤ b := by
  by_contra hc
  push_neg at hc
  have h1 : ((b : ℤ) : ℚ) + 1 ≤ ((round x : ℤ) : ℚ) := by
    exact_mod_cast Int.add_one_le_iff.mpr hc
  have h2 := abs_sub_round x
  rw [abs_le] at h2
  linarith [h2.1, h2.2]

/-- C8: the default backoff is `round((15 + 2^min(a,10)) · (1 + jitter/10) · 1000)`
milliseconds with jitter `rand·2 − 1 ∈ [−1, 1]`; for attempt 1 it lies in
[15.3 s, 18.7 s], for attempt 5 in [42.3 s, 51.7 s], and with `maxPower = 2`
every attempt ≥ 2 collapses to the attempt-2 delay based on `2^2 = 4`. -/
theorem calculateBackoff_formula_and_bounds (rand : ℚ) (h0 : 0 ≤ rand) (h1 : rand ≤ 1) :
    (∀ a : ℕ, defaultBackoff a rand =
      round (((15 + 2 ^ min a 10 : ℚ)) * (1 + 1 / 10 * (rand * 2 - 1)) * 1000)) ∧
    (15300 ≤ defaultBackoff 1 rand ∧ defaultBackoff 1 rand ≤ 18700) ∧
    (42300 ≤ defaultBackoff 5 rand ∧ defaultBackoff 5 rand ≤ 51700) ∧
    (∀ a : ℕ, 2 ≤ a →
      calculateBackoff a 15 1 2 (1 / 10) rand = calculateBackoff 2 15 1 2 (1 / 10) rand) := by
  have hformula : ∀ a : ℕ, defaultBackoff a rand =
      round (((15 + 2 ^ min a 10 : ℚ)) * (1 + 1 / 10 * (rand * 2 - 1)) * 1000) := by
    intro a
    unfold defaultBackoff calculateBackoff
    ring_nf
  have e1 : ((15 + 2 ^ min 1 10 : ℚ)) * (1 + 1 / 10 * (rand * 2 - 1)) * 1000 =
      15300 + 3400 * rand := by
    norm_num
    ring
  have e5 : ((15 + 2 ^ min 5 10 : ℚ)) * (1 + 1 / 10 * (rand * 2 - 1)) * 1000 =
      42300 + 9400 * rand := by
    norm_num
    ring
  refine ⟨hformula, ⟨?_, ?_⟩, ⟨?_, ?_⟩, ?_⟩
  · rw [hformula 1, e1]
    exact le_round_of_le (by push_cast; linarith)
  · rw [hformula 1, e1]
    exact round_le_of_le (by push_cast; linarith)
  · rw [hformula 5, e5]
    exact le_round_of_le (by push_cast; linarith)
  · rw [hformula 5, e5]
    exact round_le_of_le (by push_cast; linarith)
  · intro a ha
    unfold calculateBackoff
    rw [min_eq_right ha, min_self]

/-- C8 witness: the bounds and the `maxPower = 2` collapse at `rand = 1/2`. -/
theorem calculateBackoff_bounds_witness :
    (15300 ≤ defaultBackoff 1 (1 / 2) ∧ defaultBackoff 1 (1 / 2) ≤ 18700) ∧
    (42300 ≤ defaultBackoff 5 (1 / 2) ∧ defaultBackoff 5 (1 / 2) ≤ 51700) ∧
    calculateBackoff 7 15 1 2 (1 / 10) (1 / 2) = calculateBackoff 2 15 1 2 (1 / 10) (1 / 2) :=
  ⟨(calculateBackoff_formula_and_bounds (1 / 2) (by norm_num) (by norm_num)).2.1,
   (calculateBackoff_formula_and_bounds (1 / 2) (by norm_num) (by norm_num)).2.2.1,
   (calculateBackoff_formula_and_bounds (1 / 2) (by norm_num) (by norm_num)).2.2.2 7
     (by norm_num)⟩

/-- A table row whose id was selected by the claiming `SELECT` is an
`available` row of the requested queue (ids are unique, so the selected
candidate is that very row). -/
theorem mem_fetchIds_available {table : List Job} {q : String} {n : ℕ}
    (hids : (table.map Job.id).Nodup) {j : Job} (hj : j ∈ table)
    (hmem : j.id ∈ fetchIds table q n) :
    j.queue = q ∧ j.state = JobState.available := by
  obtain ⟨c, hc, hcid⟩ := List.mem_map.mp hmem
  have hc1 : c ∈ List.insertionSort jobOrder (fetchCandidates table q) :=
    (List.take_sublist _ _).subset hc
  have hc2 : c ∈ fetchCandidates table q := (List.mem_insertionSort jobOrder).mp hc1
  have hc3 := List.mem_filter.mp hc2
  have hc4 : c.queue = q ∧ c.state = JobState.available := by
    have := hc3.2
    simp only [Bool.and_eq_true, beq_iff_eq] at this
    exact this
  have hcj : c = j := List.inj_on_of_nodup_map hids hc3.1 hj hcid
  subst hcj
  exact hc4

/-- The claiming `SELECT` returns at most `limit` ids. -/
theorem fetchIds_length_le (table : List Job) (q : String) (n : ℕ) :
    (fetchIds table q n).length ≤ n := by
  unfold fetchIds
  rw [List.length_map, List.length_take]
  exact min_le_left _ _

/-- C1 (amended): `fetchJobs(q, n)` returns at most `n` rows; each returned
row is the claiming update (`state := 'executing'`, `attempted_at := now`,
`attempt := attempt + 1`) of a table row that was `available` in queue `q` —
with NO `scheduled_at ≤ now` filter — sorted by
`(priority ASC, scheduled_at ASC, id ASC)`; and the new table differs from
the old only by that same update applied to selected available rows of `q`. -/
theorem fetchJobs_claims_update_and_order (table : List Job) (q : String)
    (n : ℕ) (now : ℤ) (hids : (table.map Job.id).Nodup) :
    ((fetchJobs table q n now).2.length ≤ n) ∧
    (∀ r ∈ (fetchJobs table q n now).2, ∃ j ∈ table,
      j.queue = q ∧ j.state = JobState.available ∧ r = fetchUpdate now j) ∧
    (∀ r ∈ (fetchJobs table q n now).2,
      r.queue = q ∧ r.state = JobState.executing ∧ r.attemptedAt = some now) ∧
    ((fetchJobs table q n now).2.Sorted jobOrder) ∧
    (∀ x ∈ (fetchJobs table q n now).1, x ∈ table ∨ ∃ j ∈ table,
      j.queue = q ∧ j.state = JobState.available ∧ x = fetchUpdate now j) := by
  have hfst : (fetchJobs table q n now).1 =
      table.map (fun j => if j.id ∈ fetchIds table q n then fetchUpdate now j else j) := rfl
  have hsnd : (fetchJobs table q n now).2 =
      List.insertionSort jobOrder
        ((table.map (fun j => if j.id ∈ fetchIds table q n then fetchUpdate now j else j)).filter
          fun j => decide (j.id ∈ fetchIds table q n)) := rfl
  -- every returned row is the update of an available row of queue q
  have hmain : ∀ r ∈ (fetchJobs table q n now).2, ∃ j ∈ table,
      j.queue = q ∧ j.state = JobState.available ∧ r = fetchUpdate now j := by
    intro r hr
    rw [hsnd] at hr
    have hr2 := (List.mem_insertionSort jobOrder).mp hr
    have hr3 := List.mem_filter.mp hr2
    obtain ⟨j, hj, hfj⟩ := List.mem_map.mp hr3.1
    by_cases hid : j.id ∈ fetchIds table q n
    · rw [if_pos hid] at hfj
      obtain ⟨hq, hs⟩ := mem_fetchIds_available hids hj hid
      exact ⟨j, hj, hq, hs, hfj.symm⟩
    · rw [if_neg hid] at hfj
      subst hfj
      exact absurd (of_decide_eq_true hr3.2) hid
  refine ⟨?_, hmain, ?_, ?_, ?_⟩
  · -- length bound
    have hperm := List.perm_insertionSort jobOrder
      ((table.map (fun j => if j.id ∈ fetchIds table q n then fetchUpdate now j else j)).filter
        fun j => decide (j.id ∈ fetchIds table q n))
    rw [hsnd, hperm.length_eq]
    set f := fun j : Job => if j.id ∈ fetchIds table q n then fetchUpdate now j else j with hf
    have hid_pres : ∀ j ∈ table, Job.id (f j) = Job.id j := by
      intro j hj
      by_cases hid : j.id ∈ fetchIds table q n <;> simp [hf, hid, fetchUpdate]
    have hmapid : (table.map f).map Job.id = table.map Job.id := by
      rw [List.map_map]
      exact List.map_congr_left hid_pres
    have hnodup2 : ((table.map f).map Job.id).Nodup := by rw [hmapid]; exact hids
    have hsub : List.Sublist
        ((table.map f).filter fun j => decide (j.id ∈ fetchIds table q n))
        (table.map f) := List.filter_sublist _
    have hnodup3 : (((table.map f).filter
        fun j => decide (j.id ∈ fetchIds table q n)).map Job.id).Nodup :=
      hnodup2.sublist (hsub.map Job.id)
    have hsubset : (((table.map f).filter
        fun j => decide (j.id ∈ fetchIds table q n)).map Job.id) ⊆ fetchIds table q n := by
      intro i hi
      obtain ⟨x, hx, hxi⟩ := List.mem_map.mp hi
      have := of_decide_eq_true (List.mem_filter.mp hx).2
      rwa [hxi] at this
    calc (((table.map f).filter fun j => decide (j.id ∈ fetchIds table q n))).length
        = ((((table.map f).filter fun j => decide (j.id ∈ fetchIds table q n))).map Job.id).length := by
          rw [List.length_map]
      _ ≤ (fetchIds table q n).length := (hnodup3.subperm hsubset).length_le
      _ ≤ n := fetchIds_length_le table q n
  · -- state, attempted_at, queue of returned rows
    intro r hr
    obtain ⟨j, _, hq, _, rfl⟩ := hmain r hr
    exact ⟨hq, rfl, rfl⟩
  · -- returned rows are sorted by (priority, scheduled_at, id)
    rw [hsnd]
    exact List.sorted_insertionSort jobOrder _
  · -- the table mutation is exactly the claiming update on selected rows
    intro x hx
    rw [hfst] at hx
    obtain ⟨j, hj, hfj⟩ := List.mem_map.mp hx
    by_cases hid : j.id ∈ fetchIds table q n
    · rw [if_pos hid] at hfj
      obtain ⟨hq, hs⟩ := mem_fetchIds_available hids hj hid
      exact Or.inr ⟨j, hj, hq, hs, hfj.symm⟩
    · rw [if_neg hid] at hfj
      exact Or.inl (hfj ▸ hj)

/-- C1 counterexample: an `available` row with `scheduled_at = 100` is
fetched at `now = 0` — the claimed conjunct `scheduled_at ≤ now` of the
selection predicate does not exist in the SQL (neither SQLite nor the
Postgres statement filters on `scheduled_at`). -/
theorem fetchJobs_ignores_scheduled_at :
    (fetchJobs [c1job] "q" 5 0).2.map Job.id = [1] ∧ c1job.scheduledAt = 100 ∧
    ¬ ∀ r ∈ (fetchJobs [c1job] "q" 5 0).2, r.scheduledAt ≤ 0 := by
  decide

/-- C1 witness: the amended statement evaluated on a two-row table with
distinct priorities. -/
theorem fetchJobs_claims_update_and_order_witness :
    ((fetchJobs c1wjobs "q" 2 0).2.length ≤ 2) ∧
    (∀ r ∈ (fetchJobs c1wjobs "q" 2 0).2, ∃ j ∈ c1wjobs,
      j.queue = "q" ∧ j.state = JobState.available ∧ r = fetchUpdate 0 j) ∧
    (∀ r ∈ (fetchJobs c1wjobs "q" 2 0).2,
      r.queue = "q" ∧ r.state = JobState.executing ∧ r.attemptedAt = some 0) ∧
    ((fetchJobs c1wjobs "q" 2 0).2.Sorted jobOrder) ∧
    (∀ x ∈ (fetchJobs c1wjobs "q" 2 0).1, x ∈ c1wjobs ∨ ∃ j ∈ c1wjobs,
      j.queue = "q" ∧ j.state = JobState.available ∧ x = fetchUpdate 0 j) :=
  fetchJobs_claims_update_and_order c1wjobs "q" 2 0 (by decide)

end IziQueue
